import Mathlib

/-
Verification of the dynamic_deadline webhook server (src/server.py) against
its natural-language specification.

Shallow embedding conventions:
  * JSON task records become Lean structures; a missing key is `none`.
  * Calendar dates (`due_on`, the strings "YYYY-MM-DD") are modelled as `Nat`
    day numbers; the `strptime`/`strftime` round trip with `timedelta(days=k)`
    becomes `d + k` (date-only resolution, as in the source).
  * The external Asana service is a `World`: an association list of fetchable
    tasks (`fetch_task_details`), per-project task listings
    (`get_in_progress_tasks`), and the set of PUT requests that fail.
  * The module-level mutable set `processed_events` becomes an explicit
    `Ledger` threaded through the functions.  It holds two shapes of Python
    tuple: 3-tuples `(created_at, gid, action)` for events and 2-tuples
    `(task_id, due_date)` for cascade updates; a 3-tuple never equals a
    2-tuple, so the two become constructors of one `Marker` type.
  * Observable side effects (HTTP calls to the task service) are collected in
    an `Effect` trace; a successful due-date PUT also updates the `World`.
  * An exception caught by a `try`/`except` that merely logs becomes an early
    return with no state change.
-/

namespace DynamicDeadline

/-- Python's `str.lower()` as used by the source: ASCII case folding,
character by character (every string the server compares is ASCII).  Defined
over the character list so that concrete instances evaluate by `decide`. -/
def lowerStr (s : String) : String :=
  ⟨s.data.map Char.toLower⟩

/-- One entry of a task's `custom_fields` array.  `name` is the field's name
key (`none` when missing, defaulted to `""` by `field.get('name', '')`);
`enum_value` is `none` when the `enum_value` key is absent or null (falsy),
and `some s` when it is a dict whose `name` is `s` (missing name defaulting
to `""` via `enum_value.get('name', '')`). -/
structure CustomField where
  name : Option String
  enum_value : Option String
deriving DecidableEq, Repr

/-- One entry of a task's `memberships` array; `project` is the project gid
reached by `.get('project', \x7b\x7d).get('gid')`, `none` when either key is
missing. -/
structure Membership where
  project : Option String
deriving DecidableEq, Repr

/-- A task record as returned by the Asana API (`fetch_task_details` or the
project listing).  `custom_fields` is `none` when the key is absent (the
`'custom_fields' in task_data` membership test); `memberships` is `none` when
the key is absent (then `task_data.get('memberships', [\x7b\x7d])` supplies the
default singleton). -/
structure TaskData where
  gid : String
  custom_fields : Option (List CustomField)
  due_on : Option Nat
  memberships : Option (List Membership)
deriving DecidableEq, Repr

/-- A member of the `processed_events` set: either an event identity 3-tuple
`(created_at, resource gid, action)` or a cascade-update 2-tuple
`(task_id, due_date)`. -/
inductive Marker where
  | event (created_at : String) (gid : String) (action : String)
  | update (task_id : String) (due_on : Nat)
deriving DecidableEq, Repr

/-- The `processed_events` set, as a duplicate-free-by-construction list. -/
abbrev Ledger := List Marker

/-- `set.add`: insert a marker if not already present. -/
def Ledger.add (l : Ledger) (m : Marker) : Ledger :=
  if m ∈ l then l else m :: l

/-- An observable outbound HTTP call made by the server. -/
inductive Effect where
  | fetch (task_id : String)
  | listProject (project_gid : String)
  | writeDueOn (task_id : String) (due_on : Nat)
deriving DecidableEq, Repr

/-- The state of the external task service: fetchable tasks keyed by gid,
project listings keyed by project gid, and the set of due-date PUTs that
return a non-200 status. -/
structure World where
  tasks : List (String × TaskData)
  projects : List (String × List TaskData)
  failUpdates : List (String × Nat)
deriving DecidableEq, Repr

/-- Association-list lookup by key (the service answers a GET by id). -/
def lookupBy {α : Type} (l : List (String × α)) (k : String) : Option α :=
  match l with
  | [] => none
  | (k', v) :: rest => if k' = k then some v else lookupBy rest k

/-- Result of running a stateful piece of the server: the service state, the
dedup ledger, and the trace of outbound calls, in order. -/
structure Outcome where
  world : World
  ledger : Ledger
  effects : List Effect
deriving DecidableEq, Repr

/-- `fetch_task_details`: GET the task by gid; `none` models both a missing
task and a non-200 response (the function returns `None` in either case). -/
def fetch_task_details (w : World) (task_id : String) : Option TaskData :=
  lookupBy w.tasks task_id

/-- The lower-cased name of a custom field: `field.get('name', '').lower()`. -/
def fieldName (f : CustomField) : String :=
  lowerStr (f.name.getD "")

/-- Apply a successful due-date PUT to the service state. -/
def setDueOn : List (String × TaskData) → String → Nat → List (String × TaskData)
  | [], _, _ => []
  | p :: rest, task_id, d =>
      (if p.1 = task_id then (p.1, { p.2 with due_on := some d }) else p)
        :: setDueOn rest task_id d

/-- `requests.put(.../tasks/task_id, json=due_on)`: returns the updated world
and whether the response status was 200. -/
def putDueOn (w : World) (task_id : String) (d : Nat) : World × Bool :=
  if (task_id, d) ∈ w.failUpdates then (w, false)
  else ({ w with tasks := setDueOn w.tasks task_id d }, true)

/-- The single scan of `is_high_priority_in_progress` over `custom_fields`:
each field whose lowered name is `"stage"` overwrites `stage_field`, each
whose lowered name is `"priority"` overwrites `priority_field`; there is no
`break`, so the last match survives. -/
def scanFields : List CustomField → Option CustomField → Option CustomField →
    Option CustomField × Option CustomField
  | [], s, p => (s, p)
  | f :: rest, s, p =>
      scanFields rest (if fieldName f = "stage" then some f else s)
        (if fieldName f = "priority" then some f else p)

/-- `is_high_priority_in_progress(task_data)` from src/server.py: scan the
custom fields for the stage and priority fields (last match wins), require
both present with a set (truthy) `enum_value`, and compare the lowered enum
names against `"in progress"` and `"high"`. -/
def is_high_priority_in_progress (td : TaskData) : Bool :=
  let sp := scanFields (td.custom_fields.getD []) none none
  match sp.1, sp.2 with
  | some sf, some pf =>
      match sf.enum_value, pf.enum_value with
      | some sv, some pv => lowerStr sv == "in progress" && lowerStr pv == "high"
      | _, _ => false
  | _, _ => false

/-- The inner loop of `get_in_progress_tasks`: a task is kept when some field
named `stage` (case-insensitively) has a set `enum_value` whose lowered name
is `"in progress"`; a stage field with a different value does not stop the
scan (the `break` fires only on a match). -/
def hasInProgressStage : List CustomField → Bool
  | [] => false
  | f :: rest =>
      if fieldName f = "stage" then
        match f.enum_value with
        | some sv => if lowerStr sv = "in progress" then true else hasInProgressStage rest
        | none => hasInProgressStage rest
      else hasInProgressStage rest

/-- `get_in_progress_tasks(project_gid)`: list the project's tasks (a missing
project or failed GET yields `[]`) and keep those with an in-progress stage
field. -/
def get_in_progress_tasks (w : World) (project_gid : String) : List TaskData :=
  ((lookupBy w.projects project_gid).getD []).filter
    fun t => hasInProgressStage (t.custom_fields.getD [])

/-- `is_due_date_updated(task_id, current_due_date)`: membership of the
2-tuple in `processed_events`. -/
def is_due_date_updated (l : Ledger) (task_id : String) (current_due_date : Nat) : Bool :=
  decide (Marker.update task_id current_due_date ∈ l)

/-- The loop with `break` in `handle_priority_based_due_date`: stop at the
first field whose lowered name is `"priority"`. -/
def findPriorityField : List CustomField → Option CustomField
  | [] => none
  | f :: rest =>
      if fieldName f = "priority" then some f else findPriorityField rest

/-- The `priority_to_days` dict: `.get` on an unknown key yields `None`. -/
def priority_to_days (s : String) : Option Nat :=
  if s = "high" then some 2
  else if s = "medium" then some 7
  else if s = "low" then some 14
  else none

/-- `handle_priority_based_due_date(task_id, task_data)`: skip when `due_on`
is already set; find the first priority field; skip when missing or its
`enum_value` is unset; look the lowered value up in `priority_to_days`; skip
when unknown; otherwise PUT `utcnow() + days` (date-only) as the due date.
`now` is the current date as a day number.  Returns the updated world and the
trace of PUTs issued; the ledger is untouched. -/
def handle_priority_based_due_date (now : Nat) (w : World) (task_id : String)
    (td : TaskData) : World × List Effect :=
  match td.due_on with
  | some _ => (w, [])
  | none =>
      match findPriorityField (td.custom_fields.getD []) with
      | none => (w, [])
      | some f =>
          match f.enum_value with
          | none => (w, [])
          | some v =>
              match priority_to_days (lowerStr v) with
              | none => (w, [])
              | some days =>
                  let new_due_date := now + days
                  ((putDueOn w task_id new_due_date).1,
                    [Effect.writeDueOn task_id new_due_date])

/-- The project gid of the triggering task:
`task_data.get('memberships', [\x7b\x7d])[0].get('project', \x7b\x7d).get('gid')`.
A missing `memberships` key yields the default `[\x7b\x7d]` whose first element
gives `none`; a present but empty list raises `IndexError` (`.error`), caught
by the enclosing `try` with the same net result (no updates). -/
def firstMembershipProject (td : TaskData) : Except Unit (Option String) :=
  match td.memberships with
  | none => Except.ok none
  | some [] => Except.error ()
  | some (m :: _) => Except.ok m.project

/-- The `for task in in_progress_tasks` loop of
`adjust_due_dates_for_in_progress`: skip the excluded task, fetch its
details, skip when the fetch fails or there is no current due date, skip
when `is_due_date_updated` holds for `(task_id, current_due_date)`, else PUT
`current + 2` and, on a 200 response, add `(task_id, new_due_date)` to
`processed_events`. -/
def adjustLoop (excluded_task_id : String) : List TaskData → World → Ledger → Outcome
  | [], w, l => ⟨w, l, []⟩
  | task :: rest, w, l =>
      if task.gid = excluded_task_id then adjustLoop excluded_task_id rest w l
      else
        match fetch_task_details w task.gid with
        | none =>
            let r := adjustLoop excluded_task_id rest w l
            ⟨r.world, r.ledger, Effect.fetch task.gid :: r.effects⟩
        | some details =>
            match details.due_on with
            | none =>
                let r := adjustLoop excluded_task_id rest w l
                ⟨r.world, r.ledger, Effect.fetch task.gid :: r.effects⟩
            | some current_due_date =>
                if is_due_date_updated l task.gid current_due_date then
                  let r := adjustLoop excluded_task_id rest w l
                  ⟨r.world, r.ledger, Effect.fetch task.gid :: r.effects⟩
                else
                  let new_due_date := current_due_date + 2
                  let pr := putDueOn w task.gid new_due_date
                  let l' := if pr.2 then l.add (Marker.update task.gid new_due_date) else l
                  let r := adjustLoop excluded_task_id rest pr.1 l'
                  ⟨r.world, r.ledger,
                    Effect.fetch task.gid :: Effect.writeDueOn task.gid new_due_date :: r.effects⟩

/-- `adjust_due_dates_for_in_progress(excluded_task_id, task_data)`: read the
triggering task's project gid (an exception or a missing gid aborts with no
effect), list the project's in-progress tasks, and run the adjustment loop. -/
def adjust_due_dates_for_in_progress (w : World) (l : Ledger)
    (excluded_task_id : String) (td : TaskData) : Outcome :=
  match firstMembershipProject td with
  | Except.error _ => ⟨w, l, []⟩
  | Except.ok none => ⟨w, l, []⟩
  | Except.ok (some project_gid) =>
      let tasks := get_in_progress_tasks w project_gid
      let r := adjustLoop excluded_task_id tasks w l
      ⟨r.world, r.ledger, Effect.listProject project_gid :: r.effects⟩

/-- A well-formed event dict: the keys `process_event` reads. -/
structure Event where
  created_at : String
  resource_gid : String
  action : String
deriving DecidableEq, Repr

/-- An element of the payload's `events` list: `malformed` stands for any
value on which `event['created_at']` / `event['resource']['gid']` /
`event['action']` raises (missing key, wrong shape); the exception is caught
by `process_event`'s own `try`/`except`, before any state change. -/
inductive RawEvent where
  | malformed
  | well (e : Event)
deriving DecidableEq, Repr

/-- The dedup key of a well-formed event:
`(event['created_at'], event['resource']['gid'], event['action'])`. -/
def eventKey (e : Event) : Marker :=
  Marker.event e.created_at e.resource_gid e.action

/-- `process_event(event)` from src/server.py: compute the event key (a
malformed event raises here, caught with no state change); skip when the key
is already in `processed_events`; otherwise add it, fetch the task (a failed
fetch returns), and on a `'changed'` action run the priority rule (when the
record has a `custom_fields` key) and, when `is_high_priority_in_progress`
holds, the cascade.  `now` is the current date as a day number. -/
def process_event (now : Nat) (w : World) (l : Ledger) : RawEvent → Outcome
  | RawEvent.malformed => ⟨w, l, []⟩
  | RawEvent.well e =>
      if eventKey e ∈ l then ⟨w, l, []⟩
      else
        let l1 := l.add (eventKey e)
        match fetch_task_details w e.resource_gid with
        | none => ⟨w, l1, [Effect.fetch e.resource_gid]⟩
        | some td =>
            if e.action = "changed" then
              let hp :=
                if td.custom_fields.isSome then
                  handle_priority_based_due_date now w e.resource_gid td
                else (w, [])
              if is_high_priority_in_progress td then
                let r := adjust_due_dates_for_in_progress hp.1 l1 e.resource_gid td
                ⟨r.world, r.ledger, Effect.fetch e.resource_gid :: (hp.2 ++ r.effects)⟩
              else ⟨hp.1, l1, Effect.fetch e.resource_gid :: hp.2⟩
            else ⟨w, l1, [Effect.fetch e.resource_gid]⟩

/-- The `for event in events: process_event(event)` loop of the webhook
handler. -/
def processBatch (now : Nat) (w : World) (l : Ledger) : List RawEvent → Outcome
  | [] => ⟨w, l, []⟩
  | ev :: rest =>
      let r := process_event now w l ev
      let r2 := processBatch now r.world r.ledger rest
      ⟨r2.world, r2.ledger, r.effects ++ r2.effects⟩

/-- The POST body as seen through `request.json` and
`webhook_data.get('events', [])`: `unparsable` stands for any body on which
that pipeline raises (invalid JSON, a non-dict document, a non-iterable
`events` value); `events evs` is the decoded list (a dict without an
`events` key decodes to `events []`). -/
inductive Body where
  | unparsable
  | events (evs : List RawEvent)
deriving DecidableEq, Repr

/-- An inbound HTTP request, as read by the handler: the `X-Hook-Secret`
header, the method, and the POST body. -/
structure Request where
  x_hook_secret : Option String
  method : String
  body : Body
deriving DecidableEq, Repr

/-- The response body, abstracted: empty for the handshake, or one of the
three `jsonify` payloads. -/
inductive RespBody where
  | empty
  | successJson
  | errorJson
  | invalidJson
deriving DecidableEq, Repr

/-- An HTTP response: status code, body, and the `X-Hook-Secret` header when
set. -/
structure HttpResponse where
  status : Nat
  body : RespBody
  x_hook_secret : Option String
deriving DecidableEq, Repr

/-- Result of one request to the `/webhook` endpoint. -/
structure WebhookResult where
  world : World
  ledger : Ledger
  effects : List Effect
  response : HttpResponse
deriving DecidableEq, Repr

/-- The `/webhook` route handler: echo a present `X-Hook-Secret` header with
status 200 and an empty body, processing nothing else; otherwise for POST
decode the body — a raised decode error is caught by the handler's
`try`/`except` and answered with status 500 — and process each event,
answering 200; any other method falls through to the 400 response. -/
def webhook (now : Nat) (w : World) (l : Ledger) (req : Request) : WebhookResult :=
  match req.x_hook_secret with
  | some s => ⟨w, l, [], ⟨200, RespBody.empty, some s⟩⟩
  | none =>
      if req.method = "POST" then
        match req.body with
        | Body.unparsable => ⟨w, l, [], ⟨500, RespBody.errorJson, none⟩⟩
        | Body.events evs =>
            let r := processBatch now w l evs
            ⟨r.world, r.ledger, r.effects, ⟨200, RespBody.successJson, none⟩⟩
      else ⟨w, l, [], ⟨400, RespBody.invalidJson, none⟩⟩

/-- The lowered enum value of the first priority-named custom field — the
value `handle_priority_based_due_date` looks up in `priority_to_days`. -/
def priorityValueOf (td : TaskData) : Option String :=
  ((findPriorityField (td.custom_fields.getD [])).bind CustomField.enum_value).map lowerStr

/-- Modelled from the spec (§4.2), for comparison with the source: a
first-match-wins variant of the cascade-trigger test, where for each of the
stage and priority fields the FIRST field with that (case-insensitive) name
determines the result. -/
def spec_is_high_priority_first_match (td : TaskData) : Bool :=
  let fields := td.custom_fields.getD []
  let sf := fields.find? fun f => fieldName f == "stage"
  let pf := fields.find? fun f => fieldName f == "priority"
  match sf, pf with
  | some sf, some pf =>
      match sf.enum_value, pf.enum_value with
      | some sv, some pv => lowerStr sv == "in progress" && lowerStr pv == "high"
      | _, _ => false
  | _, _ => false

/-! Concrete fixtures used by counterexamples and witnesses. -/

/-- A service state with no tasks and no projects. -/
def emptyWorld : World := ⟨[], [], []⟩

/-- A triggering task: high priority, in progress, due day 10, in project
`"P"`. -/
def trigTask : TaskData :=
  { gid := "T1"
  , custom_fields := some
      [ ⟨some "Stage", some "In Progress"⟩, ⟨some "Priority", some "High"⟩ ]
  , due_on := some 10
  , memberships := some [⟨some "P"⟩] }

/-- An in-progress sibling task with gid `"T2"` and due date `d`. -/
def sibTask (d : Nat) : TaskData :=
  { gid := "T2"
  , custom_fields := some [ ⟨some "Stage", some "In Progress"⟩ ]
  , due_on := some d
  , memberships := some [⟨some "P"⟩] }

/-- A service state where project `"P"` lists the sibling `"T2"` at due day
10 and every update succeeds. -/
def cexWorld : World :=
  ⟨[("T2", sibTask 10)], [("P", [sibTask 10])], []⟩

/-- The service state after the cascade has shifted `"T2"` to day 12: the
fetchable copy and the listing both show the post-shift date. -/
def postShiftWorld : World :=
  ⟨[("T2", sibTask 12)], [("P", [sibTask 12])], []⟩

/-- A task with several same-named custom fields: the first priority field
says Low, the last says High; the stage field says In Progress. -/
def multiFieldTask : TaskData :=
  { gid := "T1"
  , custom_fields := some
      [ ⟨some "Priority", some "Low"⟩
      , ⟨some "Stage", some "In Progress"⟩
      , ⟨some "Priority", some "High"⟩ ]
  , due_on := some 10
  , memberships := some [⟨some "P"⟩] }

/-- A task with no due date and a given priority enum value. -/
def noDueTask (p : Option String) : TaskData :=
  { gid := "T3"
  , custom_fields := some [ ⟨some "Priority", p⟩ ]
  , due_on := none
  , memberships := none }

/-- A concrete well-formed change event for task `"T1"`. -/
def fxEvent : Event :=
  ⟨"2024-01-01T00:00:00Z", "T1", "changed"⟩

/-! ## Helper lemmas -/

/-- Folding a maybe-hit into `Option.or`. -/
lemma or_ite_none_or {α : Type} (x : Option α) (c : Prop) [Decidable c]
    (a : α) (y : Option α) :
    (x.or (if c then some a else none)).or y = x.or (if c then some a else y) := by
  cases x with
  | none =>
      show ((if c then some a else none)).or y = if c then some a else y
      split <;> rfl
  | some v => rfl

/-- The one-pass scan of `is_high_priority_in_progress` keeps, for each of
the two names, the LAST matching field (or the accumulator when none
matches). -/
lemma scanFields_eq (fields : List CustomField) (s p : Option CustomField) :
    scanFields fields s p =
      ((fields.reverse.find? fun g => fieldName g == "stage").or s,
       (fields.reverse.find? fun g => fieldName g == "priority").or p) := by
  induction fields generalizing s p with
  | nil => simp [scanFields]
  | cons f rest IH =>
      have hsingle : ∀ target : String,
          List.find? (fun g => fieldName g == target) [f] =
            if fieldName f = target then some f else none := by
        intro target
        by_cases h : fieldName f = target
        · simp [List.find?, h]
        · have hb : (fieldName f == target) = false := by
            simp [beq_iff_eq, h]
          simp [List.find?, hb, h]
      simp only [scanFields, IH, List.reverse_cons, List.find?_append, hsingle,
        or_ite_none_or]

/-- Membership survives `Ledger.add`. -/
lemma mem_ledger_add {l : Ledger} {x : Marker} (m : Marker) (h : x ∈ l) :
    x ∈ l.add m := by
  unfold Ledger.add
  split
  · exact h
  · exact List.mem_cons_of_mem _ h

/-- The added marker is in the ledger. -/
lemma mem_ledger_add_self (l : Ledger) (m : Marker) : m ∈ l.add m := by
  unfold Ledger.add
  split
  · assumption
  · exact List.mem_cons_self _ _

/-- The cascade loop only ever adds to the ledger. -/
lemma adjustLoop_ledger_mono (ex : String) (ts : List TaskData) :
    ∀ (w : World) (l : Ledger) (x : Marker), x ∈ l → x ∈ (adjustLoop ex ts w l).ledger := by
  induction ts with
  | nil => intro w l x h; exact h
  | cons t rest IH =>
      intro w l x h
      unfold adjustLoop
      split
      · exact IH _ _ _ h
      · split
        · exact IH _ _ _ h
        · split
          · exact IH _ _ _ h
          · split
            · exact IH _ _ _ h
            · apply IH
              split
              · exact mem_ledger_add _ h
              · exact h

/-- The cascade only ever adds to the ledger. -/
lemma adjust_ledger_mono (w : World) (l : Ledger) (ex : String) (td : TaskData)
    (x : Marker) (h : x ∈ l) :
    x ∈ (adjust_due_dates_for_in_progress w l ex td).ledger := by
  unfold adjust_due_dates_for_in_progress
  split
  · exact h
  · exact h
  · exact adjustLoop_ledger_mono _ _ _ _ _ h

/-- Processing one event only ever adds to the ledger. -/
lemma process_event_ledger_mono (now : Nat) (w : World) (l : Ledger)
    (ev : RawEvent) (x : Marker) (h : x ∈ l) :
    x ∈ (process_event now w l ev).ledger := by
  cases ev with
  | malformed => exact h
  | well e =>
      simp only [process_event]
      split
      · exact h
      · split
        · exact mem_ledger_add _ h
        · split
          · split
            · exact adjust_ledger_mono _ _ _ _ _ (mem_ledger_add _ h)
            · exact mem_ledger_add _ h
          · exact mem_ledger_add _ h

/-- After processing a well-formed event, its key is in the ledger. -/
lemma process_event_marks (now : Nat) (w : World) (l : Ledger) (e : Event) :
    eventKey e ∈ (process_event now w l (RawEvent.well e)).ledger := by
  simp only [process_event]
  split
  · assumption
  · split
    · exact mem_ledger_add_self _ _
    · split
      · split
        · exact adjust_ledger_mono _ _ _ _ _ (mem_ledger_add_self _ _)
        · exact mem_ledger_add_self _ _
      · exact mem_ledger_add_self _ _

/-- A batch only ever adds to the ledger. -/
lemma processBatch_ledger_mono (now : Nat) (evs : List RawEvent) :
    ∀ (w : World) (l : Ledger) (x : Marker), x ∈ l →
      x ∈ (processBatch now w l evs).ledger := by
  induction evs with
  | nil => intro w l x h; exact h
  | cons ev rest IH =>
      intro w l x h
      exact IH _ _ _ (process_event_ledger_mono now w l ev x h)

/-- After a batch, the key of every well-formed event of the batch is in the
ledger. -/
lemma processBatch_marks (now : Nat) (evs : List RawEvent) :
    ∀ (w : World) (l : Ledger) (e : Event), RawEvent.well e ∈ evs →
      eventKey e ∈ (processBatch now w l evs).ledger := by
  induction evs with
  | nil => intro w l e h; cases h
  | cons ev rest IH =>
      intro w l e h
      rcases List.mem_cons.mp h with h1 | h2
      · subst h1
        exact processBatch_ledger_mono now rest _ _ _
          (process_event_marks now w l e)
      · exact IH _ _ _ h2

/-- An event whose key is already in the ledger is skipped with no state
change and no effect. -/
lemma process_event_skip (now : Nat) (w : World) (l : Ledger) (e : Event)
    (h : eventKey e ∈ l) :
    process_event now w l (RawEvent.well e) = ⟨w, l, []⟩ := by
  simp only [process_event]
  rw [if_pos h]

/-- A batch all of whose well-formed events are already in the ledger is a
complete no-op. -/
lemma processBatch_skip (now : Nat) (evs : List RawEvent) :
    ∀ (w : World) (l : Ledger),
      (∀ e : Event, RawEvent.well e ∈ evs → eventKey e ∈ l) →
      processBatch now w l evs = ⟨w, l, []⟩ := by
  induction evs with
  | nil => intro w l _; rfl
  | cons ev rest IH =>
      intro w l h
      have hrest : ∀ e : Event, RawEvent.well e ∈ rest → eventKey e ∈ l :=
        fun e he => h e (List.mem_cons_of_mem _ he)
      cases ev with
      | malformed =>
          have h1 : processBatch now w l rest = ⟨w, l, []⟩ := IH _ _ hrest
          simp [processBatch, process_event, h1]
      | well e =>
          have h0 : process_event now w l (RawEvent.well e) = ⟨w, l, []⟩ :=
            process_event_skip now w l e (h e (List.mem_cons_self _ _))
          have h1 : processBatch now w l rest = ⟨w, l, []⟩ := IH _ _ hrest
          simp [processBatch, h0, h1]

/-- A due-date write to one task leaves every other task's stored record
unchanged. -/
lemma lookupBy_setDueOn_ne (tasks : List (String × TaskData)) (tid x : String)
    (d : Nat) (h : tid ≠ x) :
    lookupBy (setDueOn tasks tid d) x = lookupBy tasks x := by
  induction tasks with
  | nil => rfl
  | cons p rest IH =>
      simp only [setDueOn]
      by_cases hp : p.1 = tid
      · rw [if_pos hp]
        have hx : ¬p.1 = x := fun hh => h (by rw [← hp]; exact hh)
        simp only [lookupBy]
        rw [if_neg hx, if_neg hx]
        exact IH
      · rw [if_neg hp]
        simp only [lookupBy]
        by_cases hx : p.1 = x
        · rw [if_pos hx, if_pos hx]
        · rw [if_neg hx, if_neg hx]
          exact IH

/-- A PUT to one task (successful or not) leaves every other task's fetch
result unchanged. -/
lemma putDueOn_preserves (w : World) (t : String) (d : Nat) (x : String)
    (h : t ≠ x) :
    fetch_task_details (putDueOn w t d).1 x = fetch_task_details w x := by
  unfold putDueOn fetch_task_details
  split
  · rfl
  · exact lookupBy_setDueOn_ne _ _ _ _ h

/-- The cascade loop never writes to the excluded task and leaves its fetch
result unchanged. -/
lemma adjustLoop_excludes (ex : String) (ts : List TaskData) :
    ∀ (w : World) (l : Ledger),
      (∀ d, Effect.writeDueOn ex d ∉ (adjustLoop ex ts w l).effects) ∧
      fetch_task_details (adjustLoop ex ts w l).world ex = fetch_task_details w ex := by
  induction ts with
  | nil =>
      intro w l
      refine ⟨fun d hd => ?_, rfl⟩
      cases hd
  | cons t rest IH =>
      intro w l
      by_cases hg : t.gid = ex
      · simp only [adjustLoop, if_pos hg]
        exact IH w l
      · simp only [adjustLoop, if_neg hg]
        cases hf : fetch_task_details w t.gid with
        | none =>
            dsimp only
            refine ⟨fun d hd => ?_, (IH w l).2⟩
            rcases List.mem_cons.mp hd with h1 | h2
            · exact Effect.noConfusion h1
            · exact (IH w l).1 d h2
        | some details =>
            dsimp only
            cases hd0 : details.due_on with
            | none =>
                dsimp only
                refine ⟨fun d hd => ?_, (IH w l).2⟩
                rcases List.mem_cons.mp hd with h1 | h2
                · exact Effect.noConfusion h1
                · exact (IH w l).1 d h2
            | some current =>
                dsimp only
                by_cases hguard : is_due_date_updated l t.gid current
                · rw [if_pos hguard]
                  refine ⟨fun d hd => ?_, (IH w l).2⟩
                  rcases List.mem_cons.mp hd with h1 | h2
                  · exact Effect.noConfusion h1
                  · exact (IH w l).1 d h2
                · rw [if_neg hguard]
                  dsimp only
                  constructor
                  · intro d hd
                    rcases List.mem_cons.mp hd with h1 | h2
                    · exact Effect.noConfusion h1
                    · rcases List.mem_cons.mp h2 with h3 | h4
                      · injection h3 with h3a h3b
                        exact hg h3a.symm
                      · exact (IH _ _).1 d h4
                  · rw [(IH _ _).2]
                    exact putDueOn_preserves w t.gid (current + 2) ex hg

/-- In-progress tasks with a marked `(task, current due date)` pair are
skipped by the cascade loop: no write is ever issued for such a task. -/
lemma adjustLoop_no_write_marked (tid : String) (d : Nat) (ex : String)
    (ts : List TaskData) :
    ∀ (w : World) (l : Ledger),
      Marker.update tid d ∈ l →
      (fetch_task_details w tid).bind TaskData.due_on = some d →
      ∀ d', Effect.writeDueOn tid d' ∉ (adjustLoop ex ts w l).effects := by
  induction ts with
  | nil =>
      intro w l _ _ d' hd
      cases hd
  | cons t rest IH =>
      intro w l hmark hdue d' hd
      by_cases hg : t.gid = ex
      · rw [adjustLoop, if_pos hg] at hd
        exact IH w l hmark hdue d' hd
      · rw [adjustLoop, if_neg hg] at hd
        by_cases ht : t.gid = tid
        · -- the marked task itself: its fetch yields due date d, the guard hits
          cases hfd : fetch_task_details w t.gid with
          | none =>
              rw [hfd] at hd
              dsimp only at hd
              rcases List.mem_cons.mp hd with h1 | h2
              · exact Effect.noConfusion h1
              · exact IH w l hmark hdue d' h2
          | some details =>
              have hdet : details.due_on = some d := by
                rw [ht] at hfd
                rw [hfd] at hdue
                exact hdue
              rw [hfd] at hd
              dsimp only at hd
              rw [hdet] at hd
              dsimp only at hd
              have hguard : is_due_date_updated l t.gid d = true := by
                unfold is_due_date_updated
                rw [ht]
                exact decide_eq_true hmark
              rw [if_pos hguard] at hd
              rcases List.mem_cons.mp hd with h1 | h2
              · exact Effect.noConfusion h1
              · exact IH w l hmark hdue d' h2
        · -- some other task: writes target it, not tid; state at tid preserved
          cases hfd : fetch_task_details w t.gid with
          | none =>
              rw [hfd] at hd
              dsimp only at hd
              rcases List.mem_cons.mp hd with h1 | h2
              · exact Effect.noConfusion h1
              · exact IH w l hmark hdue d' h2
          | some details =>
              rw [hfd] at hd
              dsimp only at hd
              cases hd0 : details.due_on with
              | none =>
                  rw [hd0] at hd
                  dsimp only at hd
                  rcases List.mem_cons.mp hd with h1 | h2
                  · exact Effect.noConfusion h1
                  · exact IH w l hmark hdue d' h2
              | some current =>
                  rw [hd0] at hd
                  dsimp only at hd
                  by_cases hguard : is_due_date_updated l t.gid current
                  · rw [if_pos hguard] at hd
                    rcases List.mem_cons.mp hd with h1 | h2
                    · exact Effect.noConfusion h1
                    · exact IH w l hmark hdue d' h2
                  · rw [if_neg hguard] at hd
                    dsimp only at hd
                    rcases List.mem_cons.mp hd with h1 | h2
                    · exact Effect.noConfusion h1
                    · rcases List.mem_cons.mp h2 with h3 | h4
                      · injection h3 with h3a h3b
                        exact ht h3a.symm
                      · refine IH _ _ ?_ ?_ d' h4
                        · split
                          · exact mem_ledger_add _ hmark
                          · exact hmark
                        · rw [putDueOn_preserves w t.gid (current + 2) tid ht]
                          exact hdue

/-! ## Claim theorems -/

/-- Claim C9 (handshake echo): whenever the `X-Hook-Secret` header is
present — whatever the method and body — the endpoint answers status 200
with an empty body and the same header value, and the service state, the
ledger and the effect trace show no other processing. -/
theorem handshake_echo (now : Nat) (w : World) (l : Ledger) (s m : String)
    (b : Body) :
    webhook now w l ⟨some s, m, b⟩ = ⟨w, l, [], ⟨200, RespBody.empty, some s⟩⟩ :=
  rfl

/-- Claim C8, counterexample: a POST whose body cannot be decoded is answered
with status 500 — a server error, not the client-error (4xx) class the claim
states. -/
theorem malformed_payload_status_counterexample :
    (webhook 0 emptyWorld [] ⟨none, "POST", Body.unparsable⟩).response.status = 500 ∧
    ¬(400 ≤ (webhook 0 emptyWorld [] ⟨none, "POST", Body.unparsable⟩).response.status ∧
      (webhook 0 emptyWorld [] ⟨none, "POST", Body.unparsable⟩).response.status < 500) := by
  decide

/-- Claim C8 as amended: a POST delivery whose body cannot be decoded into
events is answered with status 500 (the decode error is caught by the
handler's `except` branch), while every syntactically valid delivery is
answered with the success status 200. -/
theorem malformed_payload_status_amended (now : Nat) (w : World) (l : Ledger) :
    (webhook now w l ⟨none, "POST", Body.unparsable⟩).response.status = 500 ∧
    ∀ evs, (webhook now w l ⟨none, "POST", Body.events evs⟩).response.status = 200 := by
  exact ⟨rfl, fun _ => rfl⟩

/-- Claim C6 (no-op on existing due date): when the task record's `due_on` is
already set, the priority-default rule issues no write and leaves the service
state unchanged, regardless of the record's priority fields. -/
theorem noop_on_existing_due_date (now : Nat) (w : World) (task_id : String)
    (td : TaskData) (d : Nat) (h : td.due_on = some d) :
    handle_priority_based_due_date now w task_id td = (w, []) := by
  unfold handle_priority_based_due_date
  rw [h]

/-- Witness for C6: the fixture `trigTask` has a due date and high priority,
and the priority-default rule does nothing to it. -/
theorem noop_on_existing_due_date_witness :
    trigTask.due_on = some 10 ∧
    handle_priority_based_due_date 0 emptyWorld "T1" trigTask = (emptyWorld, []) :=
  ⟨rfl, noop_on_existing_due_date 0 emptyWorld "T1" trigTask 10 rfl⟩

/-- Claim C4 (priority default assignment): on a record with no due date, the
rule requests due date `now + 2` when the extracted priority value is
`high`, `now + 7` when `medium`, `now + 14` when `low`, and issues no write
when the priority is unset or any other value. -/
theorem priority_default_assignment (now : Nat) (w : World) (task_id : String)
    (td : TaskData) (h : td.due_on = none) :
    (handle_priority_based_due_date now w task_id td).2 =
      if priorityValueOf td = some "high" then [Effect.writeDueOn task_id (now + 2)]
      else if priorityValueOf td = some "medium" then [Effect.writeDueOn task_id (now + 7)]
      else if priorityValueOf td = some "low" then [Effect.writeDueOn task_id (now + 14)]
      else [] := by
  unfold handle_priority_based_due_date priorityValueOf
  rw [h]
  cases hf : findPriorityField (td.custom_fields.getD []) with
  | none => simp
  | some f =>
      cases he : f.enum_value with
      | none => simp [he]
      | some v =>
          by_cases h1 : lowerStr v = "high"
          · simp [he, priority_to_days, h1]
          · by_cases h2 : lowerStr v = "medium"
            · simp [he, priority_to_days, h1, h2]
            · by_cases h3 : lowerStr v = "low"
              · simp [he, priority_to_days, h1, h2, h3]
              · simp [he, priority_to_days, h1, h2, h3]

/-- Witness for C4: a task with no due date and priority `High` gets the
write `now + 2` requested (at `now = 100`: day 102). -/
theorem priority_default_assignment_witness :
    (noDueTask (some "High")).due_on = none ∧
    (handle_priority_based_due_date 100 emptyWorld "T3" (noDueTask (some "High"))).2 =
      if priorityValueOf (noDueTask (some "High")) = some "high" then
        [Effect.writeDueOn "T3" (100 + 2)]
      else if priorityValueOf (noDueTask (some "High")) = some "medium" then
        [Effect.writeDueOn "T3" (100 + 7)]
      else if priorityValueOf (noDueTask (some "High")) = some "low" then
        [Effect.writeDueOn "T3" (100 + 14)]
      else [] :=
  ⟨rfl, priority_default_assignment 100 emptyWorld "T3" (noDueTask (some "High")) rfl⟩

/-- Claim C5, counterexample: on a task whose custom fields are
`[Priority=Low, Stage=In Progress, Priority=High]`, the first-match rule the
claim states yields `false` for the cascade trigger (first priority field is
Low), but the source's `is_high_priority_in_progress` returns `true` — its
scan has no `break`, so the LAST match wins there. -/
theorem field_extraction_first_match_counterexample :
    is_high_priority_in_progress multiFieldTask = true ∧
    spec_is_high_priority_first_match multiFieldTask = false := by
  decide

/-- Claim C5 as amended: the lookup is case-insensitive on the field name and
compares the lower-cased enum value, but the tie-break among same-named
fields differs per site — the priority-default rule takes the FIRST
priority-named field; the cascade trigger takes the LAST stage-named and the
LAST priority-named field; the in-progress filter keeps a task when ANY
stage-named field has a set enum value equal to "in progress". -/
theorem field_extraction_amended :
    (∀ fields, findPriorityField fields
        = fields.find? fun g => fieldName g == "priority") ∧
    (∀ td, is_high_priority_in_progress td = true ↔
       ((((td.custom_fields.getD []).reverse.find? fun g => fieldName g == "stage").bind
           CustomField.enum_value).map lowerStr = some "in progress" ∧
        (((td.custom_fields.getD []).reverse.find? fun g => fieldName g == "priority").bind
           CustomField.enum_value).map lowerStr = some "high")) ∧
    (∀ fields, hasInProgressStage fields = true ↔
       ∃ g ∈ fields, fieldName g = "stage" ∧
         g.enum_value.map lowerStr = some "in progress") := by
  refine ⟨?_, ?_, ?_⟩
  · intro fields
    induction fields with
    | nil => simp [findPriorityField]
    | cons f rest IH =>
        by_cases h : fieldName f = "priority"
        · simp [findPriorityField, List.find?, h]
        · have hb : (fieldName f == "priority") = false := by
            simp [beq_iff_eq, h]
          simp [findPriorityField, List.find?, h, hb, IH]
  · intro td
    unfold is_high_priority_in_progress
    rw [scanFields_eq]
    cases hsf : (td.custom_fields.getD []).reverse.find? fun g => fieldName g == "stage" with
    | none => simp
    | some sf =>
        cases hpf : (td.custom_fields.getD []).reverse.find? fun g => fieldName g == "priority" with
        | none => simp
        | some pf =>
            cases he1 : sf.enum_value with
            | none => simp [he1]
            | some sv =>
                cases he2 : pf.enum_value with
                | none => simp [he1, he2]
                | some pv => simp [he1, he2, beq_iff_eq]
  · intro fields
    induction fields with
    | nil => simp [hasInProgressStage]
    | cons f rest IH =>
        by_cases hn : fieldName f = "stage"
        · cases he : f.enum_value with
          | none => simp [hasInProgressStage, hn, he, IH]
          | some sv =>
              by_cases hv : lowerStr sv = "in progress"
              · simp [hasInProgressStage, hn, he, hv]
              · simp [hasInProgressStage, hn, he, hv, IH]
        · simp [hasInProgressStage, hn, IH]

/-- Claim C7 (batch resilience): an event whose processing raises (modelled
by `RawEvent.malformed`, whose key extraction raises and is caught by
`process_event`'s handler) contributes nothing and does not disturb the
processing of the events around it, and the endpoint still answers the whole
batch with status 200. -/
theorem batch_resilience (now : Nat) (w : World) (l : Ledger)
    (xs ys : List RawEvent) :
    processBatch now w l (xs ++ RawEvent.malformed :: ys)
      = processBatch now w l (xs ++ ys) ∧
    (webhook now w l
        ⟨none, "POST", Body.events (xs ++ RawEvent.malformed :: ys)⟩).response.status
      = 200 := by
  constructor
  · induction xs generalizing w l with
    | nil => simp [processBatch, process_event]
    | cons e rest IH =>
        simp only [List.cons_append, processBatch, List.append_eq]
        rw [IH]
  · rfl

/-- Claim C1 (idempotent event handling): an event whose identity 3-tuple is
already in the ledger is skipped with no task fetch, no rule evaluation, no
write, and an unchanged ledger; consequently re-submitting any payload right
after it was processed produces no effect at all — the second pass (at any
processing date) leaves the service state and ledger exactly as the first
pass left them. -/
theorem event_handling_idempotent (now now2 : Nat) (w : World) (l : Ledger)
    (e : Event) (h : eventKey e ∈ l) :
    process_event now w l (RawEvent.well e) = ⟨w, l, []⟩ ∧
    ∀ (w0 : World) (l0 : Ledger) (evs : List RawEvent),
      processBatch now2 (processBatch now w0 l0 evs).world
          (processBatch now w0 l0 evs).ledger evs
        = ⟨(processBatch now w0 l0 evs).world, (processBatch now w0 l0 evs).ledger, []⟩ := by
  refine ⟨process_event_skip now w l e h, ?_⟩
  intro w0 l0 evs
  exact processBatch_skip now2 evs _ _
    fun e2 he2 => processBatch_marks now evs w0 l0 e2 he2

/-- Witness for C1: with the key of `fxEvent` already in the ledger,
processing `fxEvent` changes nothing and emits nothing. -/
theorem event_handling_idempotent_witness :
    eventKey fxEvent ∈ ([eventKey fxEvent] : Ledger) ∧
    process_event 0 emptyWorld [eventKey fxEvent] (RawEvent.well fxEvent)
      = ⟨emptyWorld, [eventKey fxEvent], []⟩ :=
  ⟨by decide,
    (event_handling_idempotent 0 0 emptyWorld [eventKey fxEvent] fxEvent (by decide)).1⟩

/-- Claim C10 (event identity consumed before any effect): a well-formed
event not yet in the ledger gets its key inserted even when the task fetch
returns nothing or the action is not `"changed"` — in those cases the only
effect is the fetch attempt and the service state is untouched — and a later
delivery of the identical event is skipped entirely. -/
theorem event_marked_before_effect (now : Nat) (w : World) (l : Ledger)
    (e : Event) (h : eventKey e ∉ l) :
    eventKey e ∈ (process_event now w l (RawEvent.well e)).ledger ∧
    ((fetch_task_details w e.resource_gid = none ∨ e.action ≠ "changed") →
      (process_event now w l (RawEvent.well e)).effects = [Effect.fetch e.resource_gid] ∧
      (process_event now w l (RawEvent.well e)).world = w) ∧
    process_event now (process_event now w l (RawEvent.well e)).world
        (process_event now w l (RawEvent.well e)).ledger (RawEvent.well e)
      = ⟨(process_event now w l (RawEvent.well e)).world,
         (process_event now w l (RawEvent.well e)).ledger, []⟩ := by
  refine ⟨process_event_marks now w l e, ?_,
    process_event_skip now _ _ e (process_event_marks now w l e)⟩
  intro hcase
  simp only [process_event]
  rw [if_neg h]
  rcases hcase with hf | ha
  · rw [hf]
    exact ⟨rfl, rfl⟩
  · cases hfetch : fetch_task_details w e.resource_gid with
    | none => exact ⟨rfl, rfl⟩
    | some td =>
        dsimp only
        rw [if_neg ha]
        exact ⟨rfl, rfl⟩

/-- Witness for C10: processing `fxEvent` against an empty ledger and a
service that knows no task `"T1"` (the fetch fails) still records the event
key. -/
theorem event_marked_before_effect_witness :
    eventKey fxEvent ∉ ([] : Ledger) ∧
    eventKey fxEvent ∈ (process_event 0 emptyWorld [] (RawEvent.well fxEvent)).ledger :=
  ⟨by decide, (event_marked_before_effect 0 emptyWorld [] fxEvent (by decide)).1⟩

/-- Claim C3 (cascade exclusion): a cascade run for trigger `excluded` never
issues a due-date write for `excluded` — even when it appears in the
project's in-progress listing — and the triggering task's stored record is
unchanged by the run. -/
theorem cascade_excludes_trigger (w : World) (l : Ledger) (excluded : String)
    (td : TaskData) :
    (∀ d, Effect.writeDueOn excluded d
        ∉ (adjust_due_dates_for_in_progress w l excluded td).effects) ∧
    fetch_task_details (adjust_due_dates_for_in_progress w l excluded td).world excluded
      = fetch_task_details w excluded := by
  unfold adjust_due_dates_for_in_progress
  split
  · refine ⟨fun d hd => ?_, rfl⟩
    cases hd
  · refine ⟨fun d hd => ?_, rfl⟩
    cases hd
  · dsimp only
    refine ⟨fun d hd => ?_, (adjustLoop_excludes excluded _ w l).2⟩
    rcases List.mem_cons.mp hd with h1 | h2
    · exact Effect.noConfusion h1
    · exact (adjustLoop_excludes excluded _ w l).1 d h2

/-- Claim C2, counterexample: starting from an empty ledger, a cascade pass
over `cexWorld` (sibling `"T2"` due day 10) advances `"T2"` to day 12 and
records the marker `("T2", 12)` — the post-shift date, not the pre-shift
basis.  A second cascade pass that again observes the same pre-shift due
date 10 on `"T2"` (the date was externally reset between the passes) finds
`("T2", 10)` unrecorded and advances the task AGAIN, contradicting the
claim that a repeated pass observing the prior (pre-shift) due date does
not advance it. -/
theorem cascade_reentry_counterexample :
    Effect.writeDueOn "T2" 12
      ∈ (adjust_due_dates_for_in_progress cexWorld [] "T1" trigTask).effects ∧
    Marker.update "T2" 12
      ∈ (adjust_due_dates_for_in_progress cexWorld [] "T1" trigTask).ledger ∧
    Marker.update "T2" 10
      ∉ (adjust_due_dates_for_in_progress cexWorld [] "T1" trigTask).ledger ∧
    (fetch_task_details cexWorld "T2").bind TaskData.due_on = some 10 ∧
    Effect.writeDueOn "T2" 12
      ∈ (adjust_due_dates_for_in_progress cexWorld
          (adjust_due_dates_for_in_progress cexWorld [] "T1" trigTask).ledger
          "T1" trigTask).effects := by
  decide

/-- Claim C2 as amended: the guard consults the ledger for the
(task identity, current due date) pair before writing and skips when it is
recorded; since a successful shift records the POST-shift date, the pair is
recorded for the task's current date exactly when the cascade itself wrote
that date — so a repeated cascade pass that observes the post-shift due
date it previously wrote does not advance the task again (re-observing the
pre-shift date is not guarded; see the counterexample). -/
theorem cascade_post_shift_non_reentry (w : World) (l : Ledger)
    (excluded : String) (td : TaskData) (tid : String) (details : TaskData)
    (d : Nat) (hmark : Marker.update tid d ∈ l)
    (hfetch : fetch_task_details w tid = some details)
    (hdue : details.due_on = some d) :
    ∀ d', Effect.writeDueOn tid d'
      ∉ (adjust_due_dates_for_in_progress w l excluded td).effects := by
  intro d' hd
  unfold adjust_due_dates_for_in_progress at hd
  split at hd
  · cases hd
  · cases hd
  · dsimp only at hd
    rcases List.mem_cons.mp hd with h1 | h2
    · exact Effect.noConfusion h1
    · refine adjustLoop_no_write_marked tid d excluded _ w l hmark ?_ d' h2
      rw [hfetch]
      exact hdue

/-- Witness for the amended C2: with `("T2", 12)` recorded after the shift
and the service showing `"T2"` at its post-shift date 12, a repeated cascade
pass issues no write for `"T2"`. -/
theorem cascade_post_shift_non_reentry_witness :
    Marker.update "T2" 12 ∈ ([Marker.update "T2" 12] : Ledger) ∧
    fetch_task_details postShiftWorld "T2" = some (sibTask 12) ∧
    (sibTask 12).due_on = some 12 ∧
    Effect.writeDueOn "T2" 14 ∉
      (adjust_due_dates_for_in_progress postShiftWorld [Marker.update "T2" 12]
        "T1" trigTask).effects :=
  ⟨by decide, by decide, rfl,
    cascade_post_shift_non_reentry postShiftWorld [Marker.update "T2" 12] "T1"
      trigTask "T2" (sibTask 12) 12 (by decide) (by decide) rfl 14⟩

end DynamicDeadline
